import Mathlib

/-!
Verification of the Cart-Automation repository (TypeScript) against its
natural-language specification, via a shallow embedding of the two source
files (`index.ts` and `src/index.ts`) in Lean 4.

Strings are modelled as lists of characters; JavaScript
`String.prototype.toLowerCase` becomes `Char.toLower` mapped over the list,
and `String.prototype.includes` becomes contiguous-substring search.
Stateful code (memoised caches, the browser, the AI backend) is modelled by
explicit state passing together with event traces; the nondeterministic
outside world (what the AI backend observes, what `Math.random` returns)
is a parameter of each embedded function.
-/

namespace CartAuto

/-- JavaScript strings, modelled as lists of characters. -/
abbrev Str := List Char

/-- `s.toLowerCase()` from JavaScript. -/
def lowerStr (s : Str) : Str := s.map Char.toLower

/-- `s.includes(sub)` from JavaScript: `sub` occurs contiguously in `s`. -/
def strIncludes (s sub : Str) : Bool :=
  match s with
  | [] => sub.isEmpty
  | c :: t => sub.isPrefixOf (c :: t) || strIncludes t sub

/-- `strIncludes` decides `List.IsInfix`. -/
theorem strIncludes_iff_infix (s sub : Str) :
    strIncludes s sub = true ↔ sub <:+: s := by
  induction s with
  | nil =>
    simp [strIncludes, List.isEmpty_iff]
  | cons c t ih =>
    simp only [strIncludes, Bool.or_eq_true, List.isPrefixOf_iff_prefix, ih,
      List.infix_cons_iff]

/-- A candidate UI action returned by the AI observation backend
(`Action` from the stagehand import): a human-readable description plus a
resolvable selector. -/
structure Action where
  description : Str
  selector : Str
deriving DecidableEq, Repr

/-- Embedding of `getMatchingActions` (`index.ts`, lines 227–235):

```ts
function getMatchingActions(actions: Action[], keywords: string[][]): Action[] {
  return actions.filter((action) => {
    return keywords.some((keywordCombination) => {
      return keywordCombination.every((keyword) =>
        action.description.toLowerCase().includes(keyword.toLowerCase()),
      );
    });
  });
}
``` -/
def getMatchingActions (actions : List Action) (keywords : List (List Str)) :
    List Action :=
  actions.filter fun action =>
    keywords.any fun keywordCombination =>
      keywordCombination.all fun keyword =>
        strIncludes (lowerStr action.description) (lowerStr keyword)

/-- The spec's matching criterion, written from its words: the candidate's
case-folded description contains every (case-folded) keyword of at least one
combination. -/
def MatchesSpec (keywords : List (List Str)) (a : Action) : Prop :=
  ∃ comb ∈ keywords, ∀ kw ∈ comb, lowerStr kw <:+: lowerStr a.description

instance (keywords : List (List Str)) (a : Action) :
    Decidable (MatchesSpec keywords a) := by
  unfold MatchesSpec
  have : ∀ comb : List Str,
      Decidable (∀ kw ∈ comb, lowerStr kw <:+: lowerStr a.description) := by
    intro comb
    exact List.decidableBAll _ comb
  exact List.decidableBEx _ keywords

/-- The code's filter predicate agrees with the spec's criterion. -/
theorem matches_agree (keywords : List (List Str)) (a : Action) :
    (keywords.any fun keywordCombination =>
      keywordCombination.all fun keyword =>
        strIncludes (lowerStr a.description) (lowerStr keyword)) = true ↔
    MatchesSpec keywords a := by
  simp only [List.any_eq_true, List.all_eq_true, strIncludes_iff_infix,
    MatchesSpec]

/-- **C1.** For every candidate list `C` and keyword-combination set `K`, the
action resolver returns exactly the sublist of candidates whose case-folded
description contains every keyword of at least one combination in `K`, in the
original order of `C` (a sublist of `C` keeping precisely the matching
candidates, multiplicities included), and returns an empty sequence — a value,
not a thrown error — when no candidate matches. -/
theorem c1_resolver_exact (C : List Action) (K : List (List Str)) :
    (getMatchingActions C K).Sublist C ∧
    (∀ a, a ∈ getMatchingActions C K ↔ a ∈ C ∧ MatchesSpec K a) ∧
    (∀ a, MatchesSpec K a → (getMatchingActions C K).count a = C.count a) ∧
    (∀ a, ¬ MatchesSpec K a → (getMatchingActions C K).count a = 0) ∧
    ((∀ a ∈ C, ¬ MatchesSpec K a) → getMatchingActions C K = []) := by
  refine ⟨List.filter_sublist _, ?_, ?_, ?_, ?_⟩
  · intro a
    simp only [getMatchingActions, List.mem_filter, matches_agree]
  · intro a ha
    exact List.count_filter ((matches_agree K a).mpr ha)
  · intro a ha
    rw [List.count_eq_zero]
    simp only [getMatchingActions, List.mem_filter, matches_agree, not_and]
    exact fun _ => ha
  · intro h
    rw [List.eq_nil_iff_forall_not_mem]
    intro a
    simp only [getMatchingActions, List.mem_filter, matches_agree, not_and]
    exact h a

/-! ### C2: AI-backend client configuration (`Automation.getStageHand`) -/

/-- The process environment: a partial map from variable names to values
(`none` models a JavaScript `undefined`, i.e. an absent variable). -/
structure Env where
  vars : Str → Option Str

/-- The environment-variable name `STAGEHAND_MODEL_NAME`. -/
def MODEL_NAME_VAR : Str := "STAGEHAND_MODEL_NAME".data

/-- The environment-variable name `STAGEHAND_MODEL_API_KEY`. -/
def MODEL_API_KEY_VAR : Str := "STAGEHAND_MODEL_API_KEY".data

/-- The `model` block of the stagehand constructor options. Each field is
`Option` because a TypeScript non-null assertion (`!`) performs no runtime
check: an absent environment variable flows through as `undefined`. -/
structure ModelConfig where
  modelName : Option Str
  apiKey : Option Str
deriving DecidableEq, Repr

/-- The stagehand constructor options built by `Automation.getStageHand`. -/
structure StagehandConfig where
  envMode : Str
  model : ModelConfig
  cdpUrl : Str
  verbose : Nat
  logInferenceToFile : Bool
deriving DecidableEq, Repr

/-- Error taxonomy of the spec for client construction. -/
inductive BuildError
  | ConfigurationError
deriving DecidableEq, Repr

/-- Embedding of the configuration construction inside
`Automation.getStageHand` (`index.ts` lines 66–86; identically
`src/index.ts` lines 60–83):

```ts
this.stagehand = new Stagehand({
  env: "LOCAL",
  model: {
    modelName: process.env.STAGEHAND_MODEL_NAME!,
    apiKey: process.env.STAGEHAND_MODEL_API_KEY!,
  },
  localBrowserLaunchOptions: { cdpUrl },
  verbose: 0,
  logInferenceToFile: true,
});
```

The `!` assertions are compile-time only; the source contains no runtime
presence check and no throw on a missing variable, so the embedded builder
is total and always returns `Except.ok`. -/
def buildStagehandConfig (env : Env) (cdpUrl : Str) :
    Except BuildError StagehandConfig :=
  Except.ok
    { envMode := "LOCAL".data
      model :=
        { modelName := env.vars MODEL_NAME_VAR
          apiKey := env.vars MODEL_API_KEY_VAR }
      cdpUrl := cdpUrl
      verbose := 0
      logInferenceToFile := true }

/-- An environment in which every variable is absent. -/
def emptyEnv : Env := ⟨fun _ => none⟩

/-- **C2, counterexample.** In an environment where both the AI model name
and the AI model API key are absent, building the client configuration does
not fail with a `ConfigurationError` (or any error): it succeeds, so the
claim is false at this concrete input. -/
theorem c2_counterexample :
    emptyEnv.vars MODEL_NAME_VAR = none ∧
    emptyEnv.vars MODEL_API_KEY_VAR = none ∧
    ∀ e : BuildError, buildStagehandConfig emptyEnv [] ≠ Except.error e := by
  refine ⟨rfl, rfl, ?_⟩
  intro e h
  simp [buildStagehandConfig] at h

/-- **C2, amended.** For every environment, building the AI-backend client
configuration succeeds — it never raises a `ConfigurationError` — and the
(possibly absent) model name and API key are passed through to the backend
constructor exactly as read from the environment, absence included. -/
theorem c2_config_passed_through_unvalidated (env : Env) (cdpUrl : Str) :
    ∃ cfg, buildStagehandConfig env cdpUrl = Except.ok cfg ∧
      cfg.model.modelName = env.vars MODEL_NAME_VAR ∧
      cfg.model.apiKey = env.vars MODEL_API_KEY_VAR ∧
      cfg.cdpUrl = cdpUrl :=
  ⟨_, rfl, rfl, rfl, rfl⟩

/-! ### C3: `Automation.extract` call-shape normalization -/

/-- Extraction schemas, abstractly: the generic page-text schema imported
from the backend, the per-item listing schema built in `addToCart`, or any
other caller-supplied schema. -/
inductive Schema
  | pageTextSchema
  | itemsSchema
  | other (id : Nat)
deriving DecidableEq, Repr

/-- Options passed to `extract` (`ExtractOptions`); `none` models an absent
key. Only the keys the repository touches (`page`, `selector`) are
modelled. -/
structure ExtractOptions where
  page : Option Nat
  selector : Option Str
deriving DecidableEq, Repr

/-- Per-key behaviour of JavaScript object spread `{ ...a, ...b }`: the
right-hand object's key wins when present. -/
def overrideKey {α : Type} : Option α → Option α → Option α
  | a, none => a
  | _, some b => some b

/-- `{ ...a, ...b }` on `ExtractOptions`. -/
def mergeExtractOptions (a b : ExtractOptions) : ExtractOptions :=
  ⟨overrideKey a.page b.page, overrideKey a.selector b.selector⟩

/-- Runtime value of `extract`'s first parameter: `undefined`, an
instruction string, or an options object. -/
inductive ExtractParamOne
  | undef
  | str (s : Str)
  | opts (o : ExtractOptions)
deriving DecidableEq, Repr

/-- Runtime value of `extract`'s second parameter: `undefined`, a Zod
schema, or an options object (distinguished in the source by
`instanceof z.ZodType`). -/
inductive ExtractParamTwo
  | undef
  | schema (sch : Schema)
  | opts (o : ExtractOptions)
deriving DecidableEq, Repr

/-- The default instruction used when none is supplied. -/
def DEFAULT_EXTRACT_INSTRUCTION : Str :=
  "Extract the text content of the page".data

/-- JavaScript `v || d` on a string: `undefined` and the empty string are
falsy. -/
def jsOrElseStr (v : Option Str) (d : Str) : Str :=
  match v with
  | none => d
  | some s => if s.isEmpty then d else s

/-- Embedding of the body of `Automation.extract` (`index.ts` lines
131–165), up to the delegated call
`stagehand.extract(finalInstruction || default, finalSchema || pageTextSchema,
finalOptions)`; returns the triple of arguments passed to the backend.

```ts
let finalInstruction: string | undefined;
let finalOptions: ExtractOptions = { page: this.page };
let finalSchema: StagehandZodSchema | undefined;
if (typeof paramOne === "undefined") {
} else if (typeof paramOne === "string") {
  finalInstruction = paramOne;
  if (paramTwo && !(paramTwo instanceof z.ZodType)) {
    finalOptions = { ...finalOptions, ...paramTwo };
  }
  if (paramTwo && paramTwo instanceof z.ZodType) { finalSchema = paramTwo; }
  if (paramThree) { finalOptions = { ...finalOptions, ...paramThree }; }
} else {
  finalOptions = { ...finalOptions, ...paramOne };
}
``` -/
def extractNormalize (currentPage : Nat) (p1 : ExtractParamOne)
    (p2 : ExtractParamTwo) (p3 : Option ExtractOptions) :
    Str × Schema × ExtractOptions :=
  let base : ExtractOptions := ⟨some currentPage, none⟩
  match p1 with
  | .undef =>
    (DEFAULT_EXTRACT_INSTRUCTION, Schema.pageTextSchema, base)
  | .str s =>
    let afterTwo : Option Schema × ExtractOptions :=
      match p2 with
      | .opts o => (none, mergeExtractOptions base o)
      | .schema sch => (some sch, base)
      | .undef => (none, base)
    let finalOptions : ExtractOptions :=
      match p3 with
      | some o3 => mergeExtractOptions afterTwo.2 o3
      | none => afterTwo.2
    (jsOrElseStr (some s) DEFAULT_EXTRACT_INSTRUCTION,
      (afterTwo.1).getD Schema.pageTextSchema, finalOptions)
  | .opts o =>
    (DEFAULT_EXTRACT_INSTRUCTION, Schema.pageTextSchema,
      mergeExtractOptions base o)

/-- **C3, counterexample.** In the options-only call shape, caller-supplied
options that carry their own `page` key override the current page: with
current page `0` and caller options whose page is `1`, the options passed to
the AI backend do not include the current page. (`observe` assigns
`options.page` after merging; `extract` spreads the caller options over the
`{ page }` default, so the caller's page wins.) -/
theorem c3_counterexample :
    (extractNormalize 0 (ExtractParamOne.opts ⟨some 1, none⟩)
        ExtractParamTwo.undef none).2.2.page = some 1 ∧
    (extractNormalize 0 (ExtractParamOne.opts ⟨some 1, none⟩)
        ExtractParamTwo.undef none).2.2.page ≠ some 0 := by
  constructor
  · rfl
  · decide

/-- **C3, amended.** For every call: when the first parameter is not an
instruction string the instruction defaults to extracting the page's text
content; when no schema is supplied the schema defaults to the generic
page-text schema; and the options passed to the AI backend include the
current page provided no caller-supplied options object carries its own
`page` key (a caller-supplied page overrides it, as the counterexample
shows). -/
theorem c3_extract_normalization (currentPage : Nat) (p1 : ExtractParamOne)
    (p2 : ExtractParamTwo) (p3 : Option ExtractOptions) :
    ((∀ s, p1 ≠ ExtractParamOne.str s) →
      (extractNormalize currentPage p1 p2 p3).1 = DEFAULT_EXTRACT_INSTRUCTION) ∧
    ((∀ sch, p2 ≠ ExtractParamTwo.schema sch) →
      (extractNormalize currentPage p1 p2 p3).2.1 = Schema.pageTextSchema) ∧
    (((∀ o, p1 = ExtractParamOne.opts o → o.page = none) ∧
      (∀ o, p2 = ExtractParamTwo.opts o → o.page = none) ∧
      (∀ o, p3 = some o → o.page = none)) →
      (extractNormalize currentPage p1 p2 p3).2.2.page = some currentPage) := by
  refine ⟨?_, ?_, ?_⟩
  · intro h
    cases p1 with
    | undef => rfl
    | str s => exact absurd rfl (h s)
    | opts o => rfl
  · intro h
    cases p1 with
    | undef => rfl
    | opts o => rfl
    | str s =>
      cases p2 with
      | undef => cases p3 <;> rfl
      | schema sch => exact absurd rfl (h sch)
      | opts o => cases p3 <;> rfl
  · rintro ⟨h1, h2, h3⟩
    cases p1 with
    | undef => rfl
    | opts o =>
      have := h1 o rfl
      simp [extractNormalize, mergeExtractOptions, overrideKey, this]
    | str s =>
      cases p2 with
      | undef =>
        cases p3 with
        | none => rfl
        | some o3 =>
          have := h3 o3 rfl
          simp [extractNormalize, mergeExtractOptions, overrideKey, this]
      | schema sch =>
        cases p3 with
        | none => rfl
        | some o3 =>
          have := h3 o3 rfl
          simp [extractNormalize, mergeExtractOptions, overrideKey, this]
      | opts o =>
        have ho := h2 o rfl
        cases p3 with
        | none =>
          simp [extractNormalize, mergeExtractOptions, overrideKey, ho]
        | some o3 =>
          have := h3 o3 rfl
          simp [extractNormalize, mergeExtractOptions, overrideKey, ho, this]

/-! ### C4: `Automation.observe` call-shape normalization -/

/-- Options passed to `observe` (`ObserveOptions`); `none` models an absent
key. -/
structure ObserveOptions where
  page : Option Nat
  selector : Option Str
deriving DecidableEq, Repr

/-- The empty options object `{}`. -/
def emptyObserveOptions : ObserveOptions := ⟨none, none⟩

/-- `options.page = this.page`: assignment of the current page into an
options object. -/
def withPage (o : ObserveOptions) (p : Nat) : ObserveOptions :=
  ⟨some p, o.selector⟩

/-- Runtime value of `observe`'s first parameter. -/
inductive ObserveParamOne
  | undef
  | str (s : Str)
  | opts (o : ObserveOptions)
deriving DecidableEq, Repr

/-- Embedding of the body of `Automation.observe` (`index.ts` lines
91–117), up to the delegated call
`stagehand.observe(finalParamOne, finalParamTwo)`; returns the pair of
arguments passed to the backend.

```ts
let finalParamOne: string | ObserveOptions = Object.assign({}, paramOne);
let finalParamTwo: ObserveOptions | undefined = Object.assign({}, paramTwo);
if (typeof paramOne === "undefined") {
  const options = paramTwo || {};
  options.page = this.page;
  finalParamOne = options;
} else if (typeof paramOne === "string") {
  const options = paramTwo || {};
  options.page = this.page;
  finalParamOne = paramOne;
  finalParamTwo = options;
} else {
  const options = paramOne || {};
  options.page = this.page;
  finalParamOne = options;
}
return await stagehand.observe(finalParamOne as any, finalParamTwo);
```

In the first and third branches `options` aliases the original parameter and
is mutated after `finalParamTwo` was copied, so the second component is the
pre-mutation copy (`{}` when the parameter was `undefined`). -/
def observeNormalize (currentPage : Nat) (p1 : ObserveParamOne)
    (p2 : Option ObserveOptions) : (Str ⊕ ObserveOptions) × ObserveOptions :=
  let copyTwo := p2.getD emptyObserveOptions
  match p1 with
  | .undef =>
    (Sum.inr (withPage (p2.getD emptyObserveOptions) currentPage), copyTwo)
  | .str s =>
    (Sum.inl s, withPage (p2.getD emptyObserveOptions) currentPage)
  | .opts o =>
    (Sum.inr (withPage o currentPage), copyTwo)

/-- The options object the AI backend reads: the first argument when that is
an options object, otherwise the second argument. -/
def delegatedOptions : (Str ⊕ ObserveOptions) × ObserveOptions → ObserveOptions
  | (Sum.inr o, _) => o
  | (Sum.inl _, o) => o

/-- `observe` delegates to the backend and returns its candidate list
unchanged; the backend is abstracted as a function of the normalized
arguments. -/
def observeRun
    (backend : (Str ⊕ ObserveOptions) × ObserveOptions → List Action)
    (currentPage : Nat) (p1 : ObserveParamOne) (p2 : Option ObserveOptions) :
    List Action :=
  backend (observeNormalize currentPage p1 p2)

/-- **C4.** For every call shape, the options the backend reads carry the
current page (injected before delegation); a string instruction is passed
through as the canonical first argument; and the candidate list returned by
the backend is returned unchanged, so an empty sequence is a valid result,
not an error. -/
theorem c4_observe_normalization (currentPage : Nat) (p1 : ObserveParamOne)
    (p2 : Option ObserveOptions)
    (backend : (Str ⊕ ObserveOptions) × ObserveOptions → List Action) :
    (delegatedOptions (observeNormalize currentPage p1 p2)).page =
      some currentPage ∧
    (∀ s, p1 = ObserveParamOne.str s →
      (observeNormalize currentPage p1 p2).1 = Sum.inl s) ∧
    observeRun backend currentPage p1 p2 =
      backend (observeNormalize currentPage p1 p2) ∧
    (backend (observeNormalize currentPage p1 p2) = [] →
      observeRun backend currentPage p1 p2 = []) := by
  refine ⟨?_, ?_, rfl, fun h => h⟩
  · cases p1 <;> rfl
  · rintro s rfl
    rfl

/-- Closed instantiation of `c4_observe_normalization` discharging its inner
hypotheses at concrete inputs: an instruction-plus-options call with current
page `5` and a backend that returns nothing. -/
theorem c4_observe_normalization_witness :
    (delegatedOptions (observeNormalize 5
      (ObserveParamOne.str "find the search bar".data)
      (some ⟨none, some "form".data⟩))).page = some 5 ∧
    observeRun (fun _ => []) 5
      (ObserveParamOne.str "find the search bar".data)
      (some ⟨none, some "form".data⟩) = [] := by
  have h := c4_observe_normalization 5
    (ObserveParamOne.str "find the search bar".data)
    (some ⟨none, some "form".data⟩) (fun _ => [])
  exact ⟨h.1, h.2.2.2 rfl⟩

/-! ### C5: the empty-cart loop (`src/index.ts`, `main`, lines 126–148) -/

/-- One iteration's environment for the empty-cart loop: the candidate list
the AI backend returns for the "find the remove button" observation, and
which element (by its action) is currently visible on the page. -/
structure ObsEnv where
  actions : List Action
  visible : Action → Bool

/-- `actions.find((action) => action.description.toLowerCase().includes("remove"))`. -/
def findRemove (actions : List Action) : Option Action :=
  actions.find? fun a => strIncludes (lowerStr a.description) ("remove".data)

/-- The loop bound: `for (let i = 0; i < 10; i++)`. -/
def CART_LOOP_BOUND : Nat := 10

/-- Embedding of the empty-cart loop body, returning the remove actions
clicked, in order; `i` is the loop counter and `fuel` the remaining
iterations.

```ts
for (let i = 0; i < 10; i++) {
  const actions = await stagehand.observe("find the 'remove' button ...");
  const removeAction = actions.find((action) =>
    action.description.toLowerCase().includes("remove"));
  if (removeAction) {
    const locator = zeptoPage.locator(removeAction.selector).first();
    if (await locator.isVisible()) {
      await locator.click();
      await zeptoPage.waitForTimeout(1500);
    } else { break; }
  } else { break; }
}
``` -/
def emptyCartClicks (envs : Nat → ObsEnv) : Nat → Nat → List Action
  | _, 0 => []
  | i, fuel + 1 =>
    match findRemove (envs i).actions with
    | some a =>
      if (envs i).visible a then a :: emptyCartClicks envs (i + 1) fuel
      else []
    | none => []

/-- The empty-cart loop as run by `main`. -/
def emptyCartLoop (envs : Nat → ObsEnv) : List Action :=
  emptyCartClicks envs 0 CART_LOOP_BOUND

/-- Generalized loop invariant for `emptyCartClicks`: the click trace is no
longer than the fuel; every click was a found-and-visible remove action of
its own iteration; and when the loop stops early, the stopping iteration's
remove action (if any was found) was not visible. -/
theorem emptyCartClicks_spec (envs : Nat → ObsEnv) :
    ∀ fuel i,
      (emptyCartClicks envs i fuel).length ≤ fuel ∧
      (∀ j a, (emptyCartClicks envs i fuel)[j]? = some a →
        findRemove (envs (i + j)).actions = some a ∧
        (envs (i + j)).visible a = true) ∧
      ((emptyCartClicks envs i fuel).length < fuel →
        ∀ a,
          findRemove
            (envs (i + (emptyCartClicks envs i fuel).length)).actions =
            some a →
          (envs (i + (emptyCartClicks envs i fuel).length)).visible a =
            false) := by
  intro fuel
  induction fuel with
  | zero =>
    intro i
    refine ⟨Nat.le_refl 0, ?_, ?_⟩
    · intro j a ha
      simp only [emptyCartClicks, List.getElem?_nil] at ha
      exact absurd ha (by simp)
    · intro h
      exact absurd h (Nat.lt_irrefl 0)
  | succ fuel ih =>
    intro i
    rcases hfind : findRemove (envs i).actions with _ | a
    · have heq : emptyCartClicks envs i (fuel + 1) = [] := by
        simp [emptyCartClicks, hfind]
      rw [heq]
      refine ⟨Nat.zero_le _, ?_, ?_⟩
      · intro j a ha
        exact absurd ha (by simp)
      · intro _ a ha
        simp only [List.length_nil, Nat.add_zero, hfind] at ha
        exact absurd ha (by simp)
    · rcases hvis : (envs i).visible a with _ | _
      · have heq : emptyCartClicks envs i (fuel + 1) = [] := by
          simp [emptyCartClicks, hfind, hvis]
        rw [heq]
        refine ⟨Nat.zero_le _, ?_, ?_⟩
        · intro j b hb
          exact absurd hb (by simp)
        · intro _ b hb
          simp only [List.length_nil, Nat.add_zero, hfind,
            Option.some.injEq] at hb
          rw [← hb]
          exact hvis
      · have heq : emptyCartClicks envs i (fuel + 1) =
            a :: emptyCartClicks envs (i + 1) fuel := by
          simp [emptyCartClicks, hfind, hvis]
        rw [heq]
        have hrec := ih (i + 1)
        refine ⟨Nat.succ_le_succ hrec.1, ?_, ?_⟩
        · intro j b hb
          match j with
          | 0 =>
            simp only [List.getElem?_cons_zero, Option.some.injEq] at hb
            rw [Nat.add_zero, ← hb]
            exact ⟨hfind, hvis⟩
          | k + 1 =>
            simp only [List.getElem?_cons_succ] at hb
            have harith : i + (k + 1) = i + 1 + k := by omega
            rw [harith]
            exact hrec.2.1 k b hb
        · intro hlt b hb
          have hlt' : (emptyCartClicks envs (i + 1) fuel).length < fuel := by
            simpa [Nat.succ_lt_succ_iff] using hlt
          have harith : i + ((emptyCartClicks envs (i + 1) fuel).length + 1) =
              i + 1 + (emptyCartClicks envs (i + 1) fuel).length := by omega
          rw [List.length_cons, harith] at hb ⊢
          exact hrec.2.2 hlt' b hb

/-- **C5.** For every sequence of observation environments, the empty-cart
loop terminates within its fixed bound of 10 iterations; every click it
performs is on a remove action that was found in its own iteration and whose
element was visible; and when the loop stops before exhausting the bound, at
the stopping iteration either no remove action was found or the found one
was not visible (it is never clicked). -/
theorem c5_empty_cart_loop (envs : Nat → ObsEnv) :
    (emptyCartLoop envs).length ≤ 10 ∧
    (∀ j a, (emptyCartLoop envs)[j]? = some a →
      findRemove (envs j).actions = some a ∧
      (envs j).visible a = true) ∧
    ((emptyCartLoop envs).length < 10 →
      ∀ a,
        findRemove (envs (emptyCartLoop envs).length).actions = some a →
        (envs (emptyCartLoop envs).length).visible a = false) := by
  have h := emptyCartClicks_spec envs CART_LOOP_BOUND 0
  simpa only [emptyCartLoop, CART_LOOP_BOUND, Nat.zero_add] using h

/-- Environments for the witness: iteration 0 finds a visible remove
button, later iterations find nothing. -/
def exampleCartEnvs : Nat → ObsEnv := fun i =>
  if i = 0 then
    ⟨[⟨"remove item from cart".data, "button.remove".data⟩], fun _ => true⟩
  else ⟨[], fun _ => true⟩

/-- Closed instantiation of `c5_empty_cart_loop`: on `exampleCartEnvs` the
loop stays within its bound and the early-stop hypothesis
(`length < 10`, here the loop clicks once and stops) is discharged
concretely. -/
theorem c5_empty_cart_loop_witness :
    (emptyCartLoop exampleCartEnvs).length ≤ 10 ∧
    (∀ a,
      findRemove
        (exampleCartEnvs (emptyCartLoop exampleCartEnvs).length).actions =
        some a →
      (exampleCartEnvs (emptyCartLoop exampleCartEnvs).length).visible a =
        false) := by
  have h := c5_empty_cart_loop exampleCartEnvs
  exact ⟨h.1, h.2.2 (by decide)⟩

/-! ### C6: `Automation.getPage` page memoization -/

/-- Browser-driver events issued by `getPage`. -/
inductive PageEvent
  | newPage (id : Nat)
  | navigate (id : Nat) (url : Str)
deriving DecidableEq, Repr

/-- The `page` cache slot of an `Automation` instance. -/
structure PageState where
  page : Option Nat
deriving DecidableEq, Repr

/-- Embedding of `Automation.getPage` (`index.ts` lines 55–64; statically,
`src/index.ts` lines 50–59): return the memoized page, or open a new page
in the shared context, navigate it to the home URL, and memoize it. `fresh`
is the page the browser driver would hand out for `context.newPage()`.

```ts
protected async getPage() {
  if (this.page) { return this.page; }
  const context = await BrowserContextManager.getContext();
  const page = await context.newPage();
  await page.goto(this.HOME_URL);
  this.page = page;
  return page;
}
``` -/
def getPage (homeUrl : Str) (fresh : Nat) (s : PageState) :
    Nat × PageState × List PageEvent :=
  match s.page with
  | some p => (p, s, [])
  | none =>
    (fresh, ⟨some fresh⟩, [PageEvent.newPage fresh,
      PageEvent.navigate fresh homeUrl])

/-- `n` successive `getPage` calls, threading the cache slot and collecting
the returned pages and the browser events; `freshs k` is the page the driver
would hand out on call `k`. -/
def runGetPages (homeUrl : Str) (freshs : Nat → Nat) :
    Nat → Nat → PageState → List Nat × PageState × List PageEvent
  | _, 0, s => ([], s, [])
  | k, n + 1, s =>
    let r := getPage homeUrl (freshs k) s
    let rest := runGetPages homeUrl freshs (k + 1) n r.2.1
    (r.1 :: rest.1, rest.2.1, r.2.2 ++ rest.2.2)

/-- Number of navigations to a given URL in an event trace. -/
def countNavsTo (url : Str) (evs : List PageEvent) : Nat :=
  evs.countP fun e =>
    match e with
    | PageEvent.navigate _ u => u == url
    | _ => false

/-- Once the page slot is filled, every further `getPage` call returns the
memoized page, leaves the state unchanged and performs no browser
operation. -/
theorem runGetPages_established (homeUrl : Str) (freshs : Nat → Nat) :
    ∀ n k p, runGetPages homeUrl freshs k n ⟨some p⟩ =
      (List.replicate n p, ⟨some p⟩, []) := by
  intro n
  induction n with
  | zero => intro k p; rfl
  | succ n ih =>
    intro k p
    simp only [runGetPages, getPage, ih, List.replicate_succ,
      List.nil_append]

/-- **C6.** For every target (home URL), any positive number of `getPage`
calls on a fresh instance all return the identical page instance (the one
created on the first call), and the whole call sequence performs exactly one
navigation — to the target's home URL; subsequent calls re-navigate
nothing. -/
theorem c6_getPage_memoized (homeUrl : Str) (freshs : Nat → Nat) (n : Nat)
    (h : 1 ≤ n) :
    (runGetPages homeUrl freshs 0 n ⟨none⟩).1 =
      List.replicate n (freshs 0) ∧
    (runGetPages homeUrl freshs 0 n ⟨none⟩).2.2 =
      [PageEvent.newPage (freshs 0), PageEvent.navigate (freshs 0) homeUrl] ∧
    countNavsTo homeUrl (runGetPages homeUrl freshs 0 n ⟨none⟩).2.2 = 1 := by
  match n, h with
  | n + 1, _ =>
    have hfirst : runGetPages homeUrl freshs 0 (n + 1) ⟨none⟩ =
        (freshs 0 :: List.replicate n (freshs 0), ⟨some (freshs 0)⟩,
          [PageEvent.newPage (freshs 0),
            PageEvent.navigate (freshs 0) homeUrl]) := by
      simp only [runGetPages, getPage, runGetPages_established]
      rfl
    rw [hfirst]
    refine ⟨rfl, rfl, ?_⟩
    simp [countNavsTo, List.countP_cons]

/-- Closed instantiation of `c6_getPage_memoized`: two `getPage` calls on
the Blinkit target return the same page and navigate home exactly once. -/
theorem c6_getPage_memoized_witness :
    (runGetPages "https://blinkit.com".data (fun k => k + 31) 0 2
        ⟨none⟩).1 = List.replicate 2 31 ∧
    countNavsTo "https://blinkit.com".data
      (runGetPages "https://blinkit.com".data (fun k => k + 31) 0 2
        ⟨none⟩).2.2 = 1 := by
  have h := c6_getPage_memoized "https://blinkit.com".data
    (fun k => k + 31) 2 (by decide)
  exact ⟨h.1, h.2.2⟩

/-! ### C7: `BrowserContextManager.getContext` singleton context -/

/-- Browser-driver events issued by `getContext`. -/
inductive CtxEvent
  | launch (id : Nat)
deriving DecidableEq, Repr

/-- The static `context` cache slot of `BrowserContextManager`. -/
structure CtxState where
  context : Option Nat
deriving DecidableEq, Repr

/-- Error taxonomy for context creation (`EnvironmentError` in the spec;
`throw new Error("Chrome executable not found")` in the source). -/
inductive EnvError
  | chromeNotFound
deriving DecidableEq, Repr

/-- Embedding of `BrowserContextManager.getContext` (`index.ts` lines
25–42; identically `src/index.ts` lines 21–38): return the cached context
if present; otherwise locate a Chrome executable (`chrome`, `none` when
`findChrome()` finds nothing), failing when absent, else launch a
persistent context (`fresh`) and cache it.

```ts
static async getContext() {
  if (this.context) { return this.context; }
  const executablePath = findChrome();
  if (!executablePath) { throw new Error("Chrome executable not found"); }
  this.context = await chromium.launchPersistentContext("./user-data", {
    headless: false, executablePath,
    args: ["--remote-debugging-port=9222"],
  });
  return this.context;
}
``` -/
def getContext (chrome : Option Str) (fresh : Nat) (s : CtxState) :
    Except EnvError (Nat × CtxState × List CtxEvent) :=
  match s.context with
  | some c => Except.ok (c, s, [])
  | none =>
    match chrome with
    | none => Except.error EnvError.chromeNotFound
    | some _ => Except.ok (fresh, ⟨some fresh⟩, [CtxEvent.launch fresh])

/-- `n` successive `getContext` calls, threading the static cache slot. -/
def runGetContexts (chrome : Option Str) (freshs : Nat → Nat) :
    Nat → Nat → CtxState →
      Except EnvError (List Nat × CtxState × List CtxEvent)
  | _, 0, s => Except.ok ([], s, [])
  | k, n + 1, s =>
    match getContext chrome (freshs k) s with
    | Except.error e => Except.error e
    | Except.ok (c, s1, evs) =>
      match runGetContexts chrome freshs (k + 1) n s1 with
      | Except.error e => Except.error e
      | Except.ok (cs, s2, evs2) => Except.ok (c :: cs, s2, evs ++ evs2)

/-- Once a context is cached, every further call — even if Chrome could no
longer be located — returns that same context with no launch, and the cache
is never overwritten. -/
theorem runGetContexts_established (freshs : Nat → Nat) :
    ∀ n (chrome : Option Str) k c,
      runGetContexts chrome freshs k n ⟨some c⟩ =
        Except.ok (List.replicate n c, ⟨some c⟩, []) := by
  intro n
  induction n with
  | zero => intro chrome k c; rfl
  | succ n ih =>
    intro chrome k c
    simp only [runGetContexts, getContext, ih, List.replicate_succ,
      List.nil_append]

/-- **C7.** With a Chrome executable available, any positive number of
`getContext` calls starting from the empty process-wide cache performs
exactly one launch — on the first call — and every call returns that same
context; the cache ends (and stays) filled with it, so at most one context
exists and an established context is never recreated (the
`runGetContexts_established` lemma holds for every start, even without
Chrome). -/
theorem c7_single_context (chrome : Str) (freshs : Nat → Nat) (n : Nat)
    (h : 1 ≤ n) :
    runGetContexts (some chrome) freshs 0 n ⟨none⟩ =
      Except.ok (List.replicate n (freshs 0), ⟨some (freshs 0)⟩,
        [CtxEvent.launch (freshs 0)]) := by
  match n, h with
  | n + 1, _ =>
    simp only [runGetContexts, getContext, runGetContexts_established]
    rfl

/-- Closed instantiation of `c7_single_context`: three calls, one launch,
identical context every time. -/
theorem c7_single_context_witness :
    runGetContexts (some "/usr/bin/google-chrome".data) (fun k => k + 7)
        0 3 ⟨none⟩ =
      Except.ok ([7, 7, 7], ⟨some 7⟩, [CtxEvent.launch 7]) := by
  have h := c7_single_context "/usr/bin/google-chrome".data
    (fun k => k + 7) 3 (by decide)
  simpa using h

/-! ### C8: cart-verification tie-break (`src/index.ts`, `main`,
lines 221–244) -/

/-- `desc.includes("cart") && desc.includes("1")` over the lower-cased
description: the candidate mentions both the cart keyword and the
nonzero-count indicator. -/
def strictCartMatch (a : Action) : Bool :=
  strIncludes (lowerStr a.description) ("cart".data) &&
  strIncludes (lowerStr a.description) ("1".data)

/-- `desc.includes("cart")` over the lower-cased description. -/
def looseCartMatch (a : Action) : Bool :=
  strIncludes (lowerStr a.description) ("cart".data)

/-- Embedding of the cart-indicator choice:

```ts
const cartAction =
  cartActions.find((action) => {
    const desc = action.description.toLowerCase();
    return desc.includes("cart") && desc.includes("1");
  }) ||
  cartActions.find((action) =>
    action.description.toLowerCase().includes("cart"));
``` -/
def selectCartAction (cartActions : List Action) : Option Action :=
  match cartActions.find? strictCartMatch with
  | some a => some a
  | none => cartActions.find? looseCartMatch

/-- Events of the verification step. -/
inductive VerifyEvent
  | clickCart (a : Action)
  | logError (msg : Str)
deriving DecidableEq, Repr

/-- Embedding of the verification tail: click the chosen indicator, or log
`"Cart button not found!"` and fall through (the function is total — there
is no throw on this path, so the process is never aborted here).

```ts
if (cartAction) {
  await zeptoPage.locator(cartAction.selector).click();
} else {
  console.error("Cart button not found!");
}
``` -/
def verifyCartStep (cartActions : List Action) : List VerifyEvent :=
  match selectCartAction cartActions with
  | some a => [VerifyEvent.clickCart a]
  | none => [VerifyEvent.logError "Cart button not found!".data]

/-- A strict cart match is in particular a loose one. -/
theorem strict_implies_loose (a : Action)
    (h : strictCartMatch a = true) : looseCartMatch a = true := by
  have hh := h
  unfold strictCartMatch at hh
  rw [Bool.and_eq_true] at hh
  exact hh.1

/-- **C8.** In the cart-verification step: whenever some observed candidate
contains both the cart keyword and the nonzero-count indicator, the selected
candidate is one containing both (a both-keyword candidate is preferred over
any cart-only one); when no candidate contains the cart keyword at all, the
step logs the failure; and in every case the step produces exactly one event
and returns normally — it never aborts the process. -/
theorem c8_cart_verification (A : List Action) :
    ((∃ a ∈ A, strictCartMatch a = true) →
      ∃ b, selectCartAction A = some b ∧ strictCartMatch b = true) ∧
    ((∀ a ∈ A, looseCartMatch a = false) →
      verifyCartStep A =
        [VerifyEvent.logError "Cart button not found!".data]) ∧
    (verifyCartStep A).length = 1 := by
  refine ⟨?_, ?_, ?_⟩
  · intro hex
    have hsome : (A.find? strictCartMatch).isSome := by
      rw [List.find?_isSome]
      exact hex
    rcases Option.isSome_iff_exists.mp hsome with ⟨b, hb⟩
    refine ⟨b, ?_, List.find?_some hb⟩
    simp only [selectCartAction, hb]
  · intro hall
    have hstrict : A.find? strictCartMatch = none := by
      rw [List.find?_eq_none]
      intro a ha
      intro hs
      have := strict_implies_loose a hs
      rw [hall a ha] at this
      exact absurd this (by simp)
    have hloose : A.find? looseCartMatch = none := by
      rw [List.find?_eq_none]
      intro a ha hl
      rw [hall a ha] at hl
      exact absurd hl (by simp)
    simp only [verifyCartStep, selectCartAction, hstrict, hloose]
  · unfold verifyCartStep
    cases selectCartAction A <;> rfl

/-- A cart-only candidate listed before a both-keyword candidate. -/
def exampleCartActions : List Action :=
  [⟨"cart icon in the header".data, "a.cart".data⟩,
    ⟨"cart banner showing 1 item".data, "div.cart-banner".data⟩]

/-- Closed instantiation of `c8_cart_verification`: on
`exampleCartActions` the both-keyword candidate is selected even though a
cart-only candidate comes first, and on an empty observation the step logs
and continues. -/
theorem c8_cart_verification_witness :
    (∃ b, selectCartAction exampleCartActions = some b ∧
      strictCartMatch b = true) ∧
    verifyCartStep [] =
      [VerifyEvent.logError "Cart button not found!".data] := by
  refine ⟨(c8_cart_verification exampleCartActions).1 ?_,
    (c8_cart_verification []).2.1 ?_⟩
  · decide
  · intro a ha
    exact absurd ha (List.not_mem_nil a)

/-! ### C9: `BlinkitAutomation.addToCart` ignores its quantity argument -/

/-- An extracted listing record `{ name, price, qty }`. -/
structure Item where
  name : Str
  price : Str
  qty : Str
deriving DecidableEq, Repr

/-- The outside world of one `addToCart` run: what the AI backend observes
and what it extracts. -/
structure BkWorld where
  observed : List Action
  extracted : List Item

/-- Browser and AI-backend operations performed by `addToCart`. -/
inductive BkEvent
  | navigate (url : Str)
  | pause
  | observeCall (instruction : Str)
  | pressSequentially (selector : Str) (text : Str) (delayMs : Nat)
  | extractCall (instruction : Str) (schema : Schema) (selector : Str)
  | logItems (items : List Item)
deriving DecidableEq, Repr

/-- `BlinkitAutomation.SEARCH_URL`. -/
def BLINKIT_SEARCH_URL : Str := "https://blinkit.com/s/".data

/-- The observation instruction of `addToCart`. -/
def BLINKIT_OBSERVE_INSTRUCTION : Str :=
  "Get me  all the inputs, buttons and links".data

/-- The extraction instruction of `addToCart`. -/
def BLINKIT_EXTRACT_INSTRUCTION : Str :=
  ("Extract each item name price and quantity from the search results." ++
    " Get first 20 items only.").data

/-- The results-region selector of `addToCart`. -/
def BLINKIT_RESULTS_SELECTOR : Str :=
  "xpath=/html/body/div[1]/div/div/div[3]/div/div/div[2]/div[1]/div/div[1]".data

/-- Embedding of `BlinkitAutomation.addToCart` (`index.ts` lines 172–203):
the sequence of browser/AI operations performed, plus whether the run
completed (`false` models the TypeError thrown by
`getMatchingActions(...)[0].selector` when no candidate matched — the
events before that point have already happened). The `quantity` parameter
is declared but never read in the source body. -/
def addToCart (itemName : Str) (quantity : Nat) (w : BkWorld) :
    List BkEvent × Bool :=
  let pre := [BkEvent.navigate BLINKIT_SEARCH_URL, BkEvent.pause,
    BkEvent.observeCall BLINKIT_OBSERVE_INSTRUCTION]
  match (getMatchingActions w.observed
      [["search".data, "input".data],
        ["search".data, "textbox".data]]).head? with
  | none => (pre, false)
  | some searchInputAction =>
    (pre ++
      [BkEvent.pressSequentially searchInputAction.selector itemName 300,
        BkEvent.pause,
        BkEvent.extractCall BLINKIT_EXTRACT_INSTRUCTION Schema.itemsSchema
          BLINKIT_RESULTS_SELECTOR,
        BkEvent.logItems w.extracted], true)

/-- **C9.** For every item name, every two quantities and every behaviour of
the outside world, `addToCart` performs the identical sequence of browser
and AI-backend operations with the identical outcome: the quantity argument
has no influence whatsoever. -/
theorem c9_quantity_has_no_influence (itemName : Str) (q1 q2 : Nat)
    (w : BkWorld) :
    addToCart itemName q1 w = addToCart itemName q2 w := rfl

/-! ### C10: random item selection (`src/index.ts`, `main`,
lines 199–211) -/

/-- JavaScript array indexing `arr[i]`: `undefined` (`none`) out of
range. -/
def jsIndex {α : Type} (l : List α) (i : ℤ) : Option α :=
  if 0 ≤ i then l[i.toNat]? else none

/-- `Math.floor(Math.random() * extractActions.length)`, with
`Math.random()` modelled as an exact rational `r ∈ [0, 1)`. -/
def randomIndex (r : ℚ) (len : Nat) : ℤ := Int.floor (r * len)

/-- `extractActions[randomIndex]`. -/
def selectRandomItem (r : ℚ) (items : List Item) : Option Item :=
  jsIndex items (randomIndex r items.length)

/-- JavaScript runtime failures. -/
inductive JsError
  | typeErrorUndefined
deriving DecidableEq, Repr

/-- `itemSelectAction.name`: reading `.name` off the selected entry, which
throws a TypeError when the entry is `undefined`. -/
def selectedItemName (r : ℚ) (items : List Item) : Except JsError Str :=
  match selectRandomItem r items with
  | some it => Except.ok it.name
  | none => Except.error JsError.typeErrorUndefined

/-- **C10.** For `r ∈ [0, 1)`: on a non-empty extracted sequence the
computed index lies in `[0, N)` and selection yields an element, whose name
is then read successfully; on an empty sequence the selection accesses an
out-of-range index (`undefined`) and the subsequent `.name` access fails
with a TypeError instead of producing a "not found" result. -/
theorem c10_random_selection (r : ℚ) (items : List Item)
    (h0 : 0 ≤ r) (h1 : r < 1) :
    (items ≠ [] →
      0 ≤ randomIndex r items.length ∧
      (randomIndex r items.length).toNat < items.length ∧
      ∃ it, selectRandomItem r items = some it ∧
        selectedItemName r items = Except.ok it.name) ∧
    (items = [] →
      selectedItemName r items = Except.error JsError.typeErrorUndefined) := by
  constructor
  · intro hne
    have hlenpos : 0 < items.length := List.length_pos.mpr hne
    have hlenq : (0 : ℚ) < (items.length : ℚ) := by
      exact_mod_cast hlenpos
    have hnn : (0 : ℚ) ≤ r * items.length :=
      mul_nonneg h0 (le_of_lt hlenq)
    have hfloor0 : 0 ≤ randomIndex r items.length := by
      unfold randomIndex
      exact Int.floor_nonneg.mpr hnn
    have hmul : r * (items.length : ℚ) < (items.length : ℚ) := by
      calc r * (items.length : ℚ) < 1 * (items.length : ℚ) := by
            exact mul_lt_mul_of_pos_right h1 hlenq
        _ = (items.length : ℚ) := one_mul _
    have hfloorlt : randomIndex r items.length < (items.length : ℤ) := by
      unfold randomIndex
      rw [Int.floor_lt]
      exact_mod_cast hmul
    have htoNat : (randomIndex r items.length).toNat < items.length := by
      omega
    refine ⟨hfloor0, htoNat, ?_⟩
    have hsome : selectRandomItem r items =
        some (items[(randomIndex r items.length).toNat]) := by
      unfold selectRandomItem jsIndex
      rw [if_pos hfloor0]
      exact List.getElem?_eq_getElem htoNat
    exact ⟨items[(randomIndex r items.length).toNat], hsome, by
      unfold selectedItemName
      rw [hsome]⟩
  · intro hempty
    subst hempty
    have : randomIndex r ([] : List Item).length = 0 := by
      unfold randomIndex
      simp
    unfold selectedItemName selectRandomItem jsIndex
    rw [this]
    rfl

/-- Closed instantiation of `c10_random_selection` at `r = 7/10` on a
two-item listing (hypotheses `0 ≤ 7/10 < 1` discharged by `norm_num`) and on
an empty listing. -/
theorem c10_random_selection_witness :
    (∃ it,
      selectRandomItem (7 / 10)
        [⟨"milk 500ml".data, "30".data, "500 ml".data⟩,
          ⟨"milk 1l".data, "55".data, "1 l".data⟩] = some it ∧
      selectedItemName (7 / 10)
        [⟨"milk 500ml".data, "30".data, "500 ml".data⟩,
          ⟨"milk 1l".data, "55".data, "1 l".data⟩] = Except.ok it.name) ∧
    selectedItemName (7 / 10) [] =
      Except.error JsError.typeErrorUndefined := by
  have h := c10_random_selection (7 / 10)
    [⟨"milk 500ml".data, "30".data, "500 ml".data⟩,
      ⟨"milk 1l".data, "55".data, "1 l".data⟩]
    (by norm_num) (by norm_num)
  have hempty := c10_random_selection (7 / 10) [] (by norm_num) (by norm_num)
  exact ⟨((h.1 (by simp)).2.2), hempty.2 rfl⟩

/-! ### Witnesses for C1 and C3 -/

/-- The spec's own end-to-end resolver example: two candidates, three
keyword combinations. -/
def exampleResolverActions : List Action :=
  [⟨"search textbox for products".data, "input.search".data⟩,
    ⟨"cart icon".data, "a.cart".data⟩]

/-- The keyword combinations of the spec's resolver example. -/
def exampleResolverKeywords : List (List Str) :=
  [["search".data, "textbox".data], ["search".data, "input".data],
    ["search".data, "product".data]]

/-- Closed instantiation of `c1_resolver_exact` on the spec's example:
order is preserved and the non-matching "cart icon" candidate (its
non-matching discharged concretely) does not appear in the result. -/
theorem c1_resolver_exact_witness :
    (getMatchingActions exampleResolverActions exampleResolverKeywords).Sublist
      exampleResolverActions ∧
    (getMatchingActions exampleResolverActions
        exampleResolverKeywords).count ⟨"cart icon".data, "a.cart".data⟩ =
      0 := by
  have h := c1_resolver_exact exampleResolverActions exampleResolverKeywords
  refine ⟨h.1, h.2.2.2.1 ⟨"cart icon".data, "a.cart".data⟩ ?_⟩
  decide

/-- Closed instantiation of `c3_extract_normalization` on a no-arguments
call with current page `4`: default instruction, default schema, current
page injected (each inner hypothesis discharged concretely). -/
theorem c3_extract_normalization_witness :
    (extractNormalize 4 ExtractParamOne.undef ExtractParamTwo.undef none).1 =
      DEFAULT_EXTRACT_INSTRUCTION ∧
    (extractNormalize 4 ExtractParamOne.undef ExtractParamTwo.undef
        none).2.1 = Schema.pageTextSchema ∧
    (extractNormalize 4 ExtractParamOne.undef ExtractParamTwo.undef
        none).2.2.page = some 4 := by
  have h := c3_extract_normalization 4 ExtractParamOne.undef
    ExtractParamTwo.undef none
  refine ⟨h.1 ?_, h.2.1 ?_, h.2.2 ?_⟩
  · intro s hs
    exact absurd hs (by simp)
  · intro sch hsch
    exact absurd hsch (by simp)
  · refine ⟨?_, ?_, ?_⟩
    · intro o ho
      exact absurd ho (by simp)
    · intro o ho
      exact absurd ho (by simp)
    · intro o ho
      exact absurd ho (by simp)

end CartAuto
